import Mathlib

/-!
Verification of the name-classification pipeline of this repository.

The Python sources (`app-precheck.py`, `app-precheck-prompt-enhanment.py`,
`app.py`) are embedded shallowly.  Strings are modelled as lists of code
points (`List Nat`); the character classes of the regular expressions
(`\s`, `\w`, `[A-Za-z]`) are modelled on their ASCII fragment, which is the
fragment all claims are about.  Fallible steps are modelled with `Option`
and `Except`; the remote OpenAI call and the standard-library JSON parser
are treated as opaque dependencies and passed in as explicit arguments.
-/

set_option maxHeartbeats 1000000

namespace NameCheck

/-- Code points of a Lean string literal; used to write concrete Python
strings in theorems. -/
def str2list (s : String) : List Nat := s.data.map Char.toNat

/-- Python regex `\s` / `str.strip()` whitespace, ASCII fragment:
space, tab, newline, carriage return, vertical tab, form feed. -/
def isPySpace (c : Nat) : Bool := decide (c = 32 ∨ (9 ≤ c ∧ c ≤ 13))

/-- Regex class `[A-Za-z]`. -/
def isAsciiLetter (c : Nat) : Bool := decide ((65 ≤ c ∧ c ≤ 90) ∨ (97 ≤ c ∧ c ≤ 122))

/-- Regex class `\w`, ASCII fragment: `[A-Za-z0-9_]`. -/
def isWordChar (c : Nat) : Bool := isAsciiLetter c || decide ((48 ≤ c ∧ c ≤ 57) ∨ c = 95)

/-- Characters accepted by the pre-check's first rule: the complement of
regex `[^A-Za-z\s\-.]`, i.e. letters, whitespace, hyphen (45), period (46). -/
def isAllowedChar (c : Nat) : Bool := isAsciiLetter c || isPySpace c || decide (c = 45 ∨ c = 46)

/-! ## Normalizer (predict endpoints, lines building `name`) -/

/-- Python `str.strip()`: drop whitespace from both ends. -/
def pyStrip (s : List Nat) : List Nat :=
  ((s.dropWhile isPySpace).reverse.dropWhile isPySpace).reverse

/-- Python `re.sub(r'\s+', ' ', s)`: replace each maximal whitespace run
by a single space.  The last character of a run emits the space. -/
def collapseWs : List Nat → List Nat
  | [] => []
  | [c] => if isPySpace c then [32] else [c]
  | a :: b :: rest =>
    if isPySpace a && isPySpace b then collapseWs (b :: rest)
    else (if isPySpace a then 32 else a) :: collapseWs (b :: rest)

/-- Python `str.split()` with no argument: split on whitespace runs,
discarding empty pieces.  A non-whitespace character extends the word in
front of it; a word closes at the end or before a whitespace character. -/
def pySplit : List Nat → List (List Nat)
  | [] => []
  | c :: cs =>
    if isPySpace c then pySplit cs
    else
      match cs with
      | [] => [[c]]
      | d :: _ =>
        if isPySpace d then [c] :: pySplit cs
        else
          match pySplit cs with
          | [] => [[c]]
          | w :: ws => (c :: w) :: ws

/-- ASCII fragment of Python `str.upper()` on one character. -/
def asciiUpper (c : Nat) : Nat := if 97 ≤ c ∧ c ≤ 122 then c - 32 else c

/-- ASCII fragment of Python `str.lower()` on one character. -/
def asciiLower (c : Nat) : Nat := if 65 ≤ c ∧ c ≤ 90 then c + 32 else c

/-- Python `word[:1].upper() + word[1:].lower()`. -/
def capWord : List Nat → List Nat
  | [] => []
  | c :: cs => asciiUpper c :: cs.map asciiLower

/-- Python `' '.join(words)`. -/
def joinWords : List (List Nat) → List Nat
  | [] => []
  | [w] => w
  | w :: ws => w ++ 32 :: joinWords ws

/-- Normalization of `app-precheck.py` lines 53-57:
strip, collapse whitespace, strip, then capitalize each token. -/
def normalizeName (s : List Nat) : List Nat :=
  joinWords ((pySplit (pyStrip (collapseWs (pyStrip s)))).map capWord)

/-- Normalization of `app-precheck-prompt-enhanment.py` lines 45-50
(no second strip before splitting). -/
def normalizeEnh (s : List Nat) : List Nat :=
  joinWords ((pySplit (collapseWs (pyStrip s))).map capWord)

/-- Normalization of `app.py` lines 46-48: strip, collapse, strip,
with no capitalization. -/
def normalizeApp (s : List Nat) : List Nat :=
  pyStrip (collapseWs (pyStrip s))

/-! ## Deterministic pre-check -/

/-- Substring test for a two-character run `[a, a]` (Python `'--' in s`,
`'..' in s`). -/
def containsPair (a : Nat) : List Nat → Bool
  | x :: y :: rest => (x == a && y == a) || containsPair a (y :: rest)
  | _ => false

/-- Regex `(?<=\w)\.(?=\w)`: some period with a word character directly
on each side. -/
def hasTightDot : List Nat → Bool
  | a :: b :: c :: rest =>
    (isWordChar a && b == 46 && isWordChar c) || hasTightDot (b :: c :: rest)
  | _ => false

/-- Rule 1 of the pre-check: `re.search(r"[^A-Za-z\s\-.]", name)`. -/
def hasInvalidChar (s : List Nat) : Bool := s.any (fun c => !isAllowedChar c)

/-- Rule 2 quantity: `len(re.findall(r"[A-Za-z]", name))`. -/
def letterCount (s : List Nat) : Nat := (s.filter isAsciiLetter).length

def msgInvalidChars : List Nat := str2list "Invalid characters present"
def msgTooFew : List Nat := str2list "Too few letters"
def msgConsecutive : List Nat := str2list "Consecutive punctuation"
def msgDot : List Nat := str2list "Invalid dot formatting, must have spaces after dot(.)"
def msgInvalidCharsEnh : List Nat := str2list "Invalid characters"
def msgDotEnh : List Nat := str2list "Invalid dot formatting"

/-- The pre-check of `app-precheck.py` lines 29-43. -/
def precheck_name (name : List Nat) : Bool × Option (List Nat) :=
  if hasInvalidChar name then (false, some msgInvalidChars)
  else if letterCount name < 3 then (false, some msgTooFew)
  else if containsPair 45 name || containsPair 46 name then (false, some msgConsecutive)
  else if hasTightDot name then (false, some msgDot)
  else (true, none)

/-- The pre-check of `app-precheck-prompt-enhanment.py` lines 27-40
(same rules, shorter reason strings). -/
def precheck_name_enh (name : List Nat) : Bool × Option (List Nat) :=
  if hasInvalidChar name then (false, some msgInvalidCharsEnh)
  else if letterCount name < 3 then (false, some msgTooFew)
  else if containsPair 45 name || containsPair 46 name then (false, some msgConsecutive)
  else if hasTightDot name then (false, some msgDotEnh)
  else (true, none)

/-! ## Response extraction

Embedding of `re.search(r"```json\s*({.*?})\s*```", text, re.DOTALL | re.IGNORECASE)`
for this fixed pattern: leftmost match wins; after the literal fence opening
the greedy `\s*` and the mandatory `{` are deterministic, and the non-greedy
`.*?` closes the capture at the first `}` whose remaining suffix is
whitespace followed by three backticks. -/

/-- Whether the suffix after a candidate closing brace matches `\s*` + three
backticks (96). -/
def closeAndFence (s : List Nat) : Bool :=
  match s.dropWhile isPySpace with
  | 96 :: 96 :: 96 :: _ => true
  | _ => false

/-- Scan for the first closing `}` (125) whose suffix matches the fence tail;
`acc` holds the reversed body consumed so far.  Returns the capture group
`{body}`. -/
def findBody (acc : List Nat) : List Nat → Option (List Nat)
  | [] => none
  | c :: rest =>
    if c == 125 && closeAndFence rest then some (123 :: (acc.reverse ++ [125]))
    else findBody (c :: acc) rest

/-- Case-insensitive letters of the `json` annotation, in spelling order
j (106), s (115), o (111), n (110). -/
def isJsonTag (j s o n : Nat) : Bool :=
  (j == 106 || j == 74) && (s == 115 || s == 83) && (o == 111 || o == 79) &&
    (n == 110 || n == 78)

/-- Try to match the fence pattern starting at the head of `s`. -/
def matchFenceHere (s : List Nat) : Option (List Nat) :=
  match s with
  | 96 :: 96 :: 96 :: j :: sc :: o :: n :: rest =>
    if isJsonTag j sc o n then
      match rest.dropWhile isPySpace with
      | 123 :: body => findBody [] body
      | _ => none
    else none
  | _ => none

/-- re.search: try each start position from the left. -/
def fenceSearch : List Nat → Option (List Nat)
  | [] => none
  | c :: rest =>
    match matchFenceHere (c :: rest) with
    | some g => some g
    | none => fenceSearch rest

/-- The helper of `app.py` lines 28-36: fenced capture if any, otherwise the
stripped text (returned by both branches of the brace test). -/
def extract_json_from_response (text : List Nat) : List Nat :=
  match fenceSearch text with
  | some g => g
  | none =>
    let t := pyStrip text
    if t.head? = some 123 ∧ t.getLast? = some 125 then t else t

/-- The inline extraction of `app-precheck.py` lines 112-113:
`json_str = match.group(1) if match else reply_content`. -/
def extractJsonPre (text : List Nat) : List Nat :=
  (fenceSearch text).getD text

/-- A reply consisting of a payload wrapped in a Markdown code fence
annotated as json. -/
def fenceWrap (p : List Nat) : List Nat :=
  str2list "```json" ++ (10 :: p) ++ (10 :: str2list "```")

/-! ## Parsed JSON values, verdict construction, orchestrators -/

/-- Values inside a decoded JSON object: a string, or anything else
(whose precise shape none of the validation logic inspects). -/
inductive JsonV where
  | str (s : List Nat)
  | other
deriving DecidableEq

/-- A decoded JSON object (Python dict from `json.loads`). -/
abbrev JsonObj := List (List Nat × JsonV)

/-- Python `dict.get(k)`. -/
def objGet (o : JsonObj) (k : List Nat) : Option JsonV :=
  (o.find? (fun kv => kv.1 == k)).map (fun kv => kv.2)

/-- A JSON value arriving in the request payload; `.strip()` is only
defined on `str`. -/
inductive JVal where
  | str (s : List Nat)
  | num (n : Int)
  | null
  | jbool (b : Bool)
deriving DecidableEq

/-- Request body: `name` and `model` fields of the posted JSON. -/
structure ReqData where
  name : Option JVal := none
  model : Option (List Nat) := none
deriving DecidableEq

/-- An HTTP reply of the endpoint together with the instrumentation bit
recording whether the remote OpenAI call was reached. -/
structure PipeResult where
  status : Nat
  body : JsonObj
  remoteCalled : Bool
deriving DecidableEq

def kName : List Nat := str2list "name"
def kPrediction : List Nat := str2list "prediction"
def kReason : List Nat := str2list "reason"
def kError : List Nat := str2list "error"
def sRealistic : List Nat := str2list "Realistic"
def sNotRealistic : List Nat := str2list "Not Realistic"
def sNoReason : List Nat := str2list "Reason not provided by AI."

/-- The model allow-list, shared by all three endpoint files. -/
def VALID_MODELS : List (List Nat) :=
  [str2list "gpt-4.1", str2list "gpt-4.1-mini", str2list "gpt-4.1-nano",
   str2list "gpt-4o-mini"]

def msgInvalidModel : List Nat :=
  str2list "Invalid model. Choose from ['gpt-4.1', 'gpt-4.1-mini', 'gpt-4.1-nano', 'gpt-4o-mini']"

/-- Validation of the decoded model reply, `app-precheck.py` lines 117-129
(identical in `app.py` lines 148-163): reject a prediction outside the two
literals, drop any reason on `Realistic`, and default a missing reason on
`Not Realistic`.  The dynamic tail of the rejection message (Python's
rendering of the offending value) is abbreviated to the fixed prefix. -/
def validate_prediction (name : List Nat) (result : JsonObj) : Nat × JsonObj :=
  let pred := objGet result kPrediction
  if pred ≠ some (.str sRealistic) ∧ pred ≠ some (.str sNotRealistic) then
    (500, [(kError, .str (str2list "Invalid prediction value from model"))])
  else if pred = some (.str sRealistic) then
    (200, [(kName, .str name), (kPrediction, .str sRealistic)])
  else
    (200, [(kName, .str name), (kPrediction, .str sNotRealistic),
           (kReason, (objGet result kReason).getD (.str sNoReason))])

/-- The `/predict` endpoint of `app-precheck.py` (lines 45-144).
`jsonLoads` stands for `json.loads`; `api` is the outcome of the remote
call, an error message or the raw reply text.  Exceptions raised by
`.strip()` on a non-string `name` reach the catch-all handler. -/
def predictPre (data : Option ReqData)
    (jsonLoads : List Nat → Except Unit JsonObj)
    (api : Except (List Nat) (List Nat)) : PipeResult :=
  match data with
  | none => ⟨400, [(kError, .str (str2list "Invalid JSON payload"))], false⟩
  | some d =>
    match d.name.getD (.str []) with
    | .str raw =>
      let model := d.model.getD (str2list "gpt-4.1-nano")
      let name := normalizeName raw
      if name = [] then ⟨400, [(kError, .str (str2list "No name provided"))], false⟩
      else
        let pc := precheck_name name
        if pc.1 = false then
          ⟨200, [(kName, .str name), (kPrediction, .str sNotRealistic),
                 (kReason, .str (pc.2.getD []))], false⟩
        else if model ∉ VALID_MODELS then
          ⟨400, [(kError, .str msgInvalidModel)], false⟩
        else
          match api with
          | .error e => ⟨500, [(kError, .str (str2list "OpenAI API error: " ++ e))], true⟩
          | .ok reply =>
            let rc := pyStrip reply
            let jsonStr := extractJsonPre rc
            match jsonLoads jsonStr with
            | .error _ =>
              ⟨500, [(kError, .str (str2list "Invalid JSON response format from model"))], true⟩
            | .ok result =>
              let vb := validate_prediction name result
              ⟨vb.1, vb.2, true⟩
    | _ => ⟨500, [(kError, .str (str2list "An unexpected server error occurred"))], false⟩

/-- The `/predict` endpoint of `app-precheck-prompt-enhanment.py`
(lines 42-95).  Note the model allow-list test precedes the pre-check,
the pre-check rejection carries no reason (line 64 is commented out), and
the remote protocol is a single digit `1`/`0`. -/
def predictEnh (data : Option ReqData)
    (api : Except Unit (List Nat)) : PipeResult :=
  let d := data.getD {}
  match d.name.getD (.str []) with
  | .str raw =>
    let model := d.model.getD (str2list "gpt-4o-mini")
    let name := normalizeEnh raw
    if name = [] then ⟨400, [(kError, .str (str2list "No name provided"))], false⟩
    else if model ∉ VALID_MODELS then
      ⟨400, [(kError, .str msgInvalidModel)], false⟩
    else if (precheck_name_enh name).1 = false then
      ⟨200, [(kName, .str name), (kPrediction, .str sNotRealistic)], false⟩
    else
      match api with
      | .error _ => ⟨500, [(kError, .str (str2list "OpenAI API error"))], true⟩
      | .ok reply =>
        let r := pyStrip reply
        if r.head? = some 49 then ⟨200, [(kName, .str name), (kPrediction, .str sRealistic)], true⟩
        else if r.head? = some 48 then
          ⟨200, [(kName, .str name), (kPrediction, .str sNotRealistic)], true⟩
        else ⟨500, [(kError, .str (str2list "Invalid response from model"))], true⟩
  | _ =>
    -- this file has no catch-all handler: `.strip()` on a non-string name
    -- raises out of the view function and Flask renders a generic 500 page
    ⟨500, [(kError, .str (str2list "unhandled TypeError"))], false⟩

/-- A word as produced by `str.split()`: nonempty and whitespace-free. -/
def goodWord (w : List Nat) : Prop := w ≠ [] ∧ ∀ c ∈ w, isPySpace c = false

/-- All words of a split result are good. -/
def goodWords (ws : List (List Nat)) : Prop := ∀ w ∈ ws, goodWord w

/-- No two adjacent whitespace characters. -/
def noPairWs (a b : Nat) : Prop := ¬(isPySpace a = true ∧ isPySpace b = true)

/-! ## Helper lemmas -/

/-- A string with at least three elements whose tail has a tight dot has one. -/
theorem hasTightDot_cons (x : Nat) (s : List Nat) (h : hasTightDot s = true) :
    hasTightDot (x :: s) = true := by
  match s with
  | [] => simp [hasTightDot] at h
  | [a] => simp [hasTightDot] at h
  | [a, b] => simp [hasTightDot] at h
  | a :: b :: c :: rest =>
    unfold hasTightDot
    simp [h]

/-- Characterization of the dot rule: it fires exactly when some period has
a word character directly on each side. -/
theorem hasTightDot_iff (s : List Nat) :
    hasTightDot s = true ↔
      ∃ pre a c post, s = pre ++ a :: 46 :: c :: post ∧
        isWordChar a = true ∧ isWordChar c = true := by
  constructor
  · intro h
    induction s with
    | nil => simp [hasTightDot] at h
    | cons x t ih =>
      match t, h with
      | b :: c :: rest, h =>
        unfold hasTightDot at h
        rcases Bool.or_eq_true_iff.mp h with h' | h'
        · refine ⟨[], x, c, rest, ?_, ?_, ?_⟩ <;> simp_all
        · obtain ⟨pre, a', c', post, heq, ha, hc⟩ := ih h'
          exact ⟨x :: pre, a', c', post, by simp [heq], ha, hc⟩
  · rintro ⟨pre, a, c, post, rfl, ha, hc⟩
    induction pre with
    | nil => unfold hasTightDot; simp [ha, hc]
    | cons x pre ih => exact hasTightDot_cons x _ ih

/-- The reason attached to a failing pre-check is one of the four fixed
strings. -/
theorem precheck_reason_mem (s : List Nat) (h : (precheck_name s).1 = false) :
    ∃ r, (precheck_name s).2 = some r ∧
      r ∈ [msgInvalidChars, msgTooFew, msgConsecutive, msgDot] := by
  unfold precheck_name at *
  split_ifs at * <;> simp_all

/-! ## Claims -/

/-- C3: `precheck_name` evaluates its four rules in the fixed order
InvalidCharacters, TooFewLetters, ConsecutivePunctuation,
InvalidDotFormatting; the returned reason is that of the first failing
rule and later rules are not consulted; in particular "A1" (a digit and
fewer than 3 letters) fails with InvalidCharacters, not TooFewLetters. -/
theorem precheck_first_failing_rule (s : List Nat) :
    (precheck_name s = (false, some msgInvalidChars) ↔ hasInvalidChar s = true) ∧
    (precheck_name s = (false, some msgTooFew) ↔
      hasInvalidChar s = false ∧ letterCount s < 3) ∧
    (precheck_name s = (false, some msgConsecutive) ↔
      hasInvalidChar s = false ∧ ¬ letterCount s < 3 ∧
        (containsPair 45 s || containsPair 46 s) = true) ∧
    (precheck_name s = (false, some msgDot) ↔
      hasInvalidChar s = false ∧ ¬ letterCount s < 3 ∧
        (containsPair 45 s || containsPair 46 s) = false ∧ hasTightDot s = true) ∧
    (precheck_name s = (true, none) ↔
      hasInvalidChar s = false ∧ ¬ letterCount s < 3 ∧
        (containsPair 45 s || containsPair 46 s) = false ∧ hasTightDot s = false) ∧
    (precheck_name (str2list "A1") = (false, some msgInvalidChars) ∧
      letterCount (str2list "A1") < 3) := by
  have d12 : msgInvalidChars ≠ msgTooFew := by decide
  have d13 : msgInvalidChars ≠ msgConsecutive := by decide
  have d14 : msgInvalidChars ≠ msgDot := by decide
  have d23 : msgTooFew ≠ msgConsecutive := by decide
  have d24 : msgTooFew ≠ msgDot := by decide
  have d34 : msgConsecutive ≠ msgDot := by decide
  have d21 : msgTooFew ≠ msgInvalidChars := by decide
  have d31 : msgConsecutive ≠ msgInvalidChars := by decide
  have d41 : msgDot ≠ msgInvalidChars := by decide
  have d32 : msgConsecutive ≠ msgTooFew := by decide
  have d42 : msgDot ≠ msgTooFew := by decide
  have d43 : msgDot ≠ msgConsecutive := by decide
  refine ⟨?_, ?_, ?_, ?_, ?_, by decide⟩ <;>
      (unfold precheck_name; split_ifs with h1 h2 h3 h4 <;> simp_all <;> try omega) <;>
    (rintro h5 h6; rcases h3 with hx | hx <;> simp_all)

/-- C4 counterexample: the string "12" has fewer than 3 letters yet the
pre-check rejects it with the InvalidCharacters reason, not TooFewLetters. -/
theorem tooFewLetters_counterexample :
    letterCount (str2list "12") < 3 ∧
    precheck_name (str2list "12") = (false, some msgInvalidChars) ∧
    (precheck_name (str2list "12")).2 ≠ some msgTooFew := by decide

/-- C4 amended: every string with fewer than 3 ASCII letters and no
disallowed character fails the pre-check with reason TooFewLetters. -/
theorem tooFewLetters_of_allowed (s : List Nat)
    (hc : hasInvalidChar s = false) (hl : letterCount s < 3) :
    precheck_name s = (false, some msgTooFew) := by
  unfold precheck_name
  simp [hc, hl]

/-- C4 witness: "Ku" satisfies the hypotheses and is rejected with
TooFewLetters. -/
theorem tooFewLetters_of_allowed_witness :
    precheck_name (str2list "Ku") = (false, some msgTooFew) :=
  tooFewLetters_of_allowed _ (by decide) (by decide)

/-- C5: the InvalidDotFormatting rule fires exactly on strings where a
period has a word character directly on each side; "m.ahmed" fails both
pre-check variants with the dot reason while "Mr. Hanif Uddin" and
"p. k. robi" pass all four rules in both variants. -/
theorem invalid_dot_formatting_rule (s : List Nat) :
    (hasTightDot s = true ↔
      ∃ pre a c post, s = pre ++ a :: 46 :: c :: post ∧
        isWordChar a = true ∧ isWordChar c = true) ∧
    precheck_name (str2list "m.ahmed") = (false, some msgDot) ∧
    precheck_name_enh (str2list "m.ahmed") = (false, some msgDotEnh) ∧
    precheck_name (str2list "Mr. Hanif Uddin") = (true, none) ∧
    precheck_name (str2list "p. k. robi") = (true, none) ∧
    precheck_name_enh (str2list "Mr. Hanif Uddin") = (true, none) ∧
    precheck_name_enh (str2list "p. k. robi") = (true, none) :=
  ⟨hasTightDot_iff s, by decide, by decide, by decide, by decide, by decide, by decide⟩

/-- C7: a validated Realistic reply yields a verdict body without any
reason key, even when the decoded reply carried one; a validated
Not Realistic reply always carries a reason: the supplied value if
present, otherwise the fixed placeholder. -/
theorem realistic_reason_dropped (name : List Nat) (result : JsonObj) :
    (objGet result kPrediction = some (.str sRealistic) →
      validate_prediction name result =
        (200, [(kName, .str name), (kPrediction, .str sRealistic)])) ∧
    (objGet result kPrediction = some (.str sNotRealistic) →
      validate_prediction name result =
        (200, [(kName, .str name), (kPrediction, .str sNotRealistic),
               (kReason, (objGet result kReason).getD (.str sNoReason))])) ∧
    objGet [(kName, JsonV.str name), (kPrediction, JsonV.str sRealistic)] kReason = none ∧
    (∀ v, objGet [(kName, JsonV.str name), (kPrediction, JsonV.str sNotRealistic),
        (kReason, v)] kReason = some v) := by
  have hrn : sRealistic ≠ sNotRealistic := by decide
  have hnr : sNotRealistic ≠ sRealistic := by decide
  have e1 : (kName == kReason) = false := by decide
  have e2 : (kPrediction == kReason) = false := by decide
  have e3 : (kReason == kReason) = true := by decide
  refine ⟨?_, ?_, ?_, ?_⟩
  · intro h
    unfold validate_prediction
    simp [h, hrn]
  · intro h
    unfold validate_prediction
    simp [h, hrn, hnr]
  · simp [objGet, List.find?, e1, e2]
  · intro v
    simp [objGet, List.find?, e1, e2, e3]

/-- C7 witness: at concrete replies, a Realistic reply with an extra
reason field loses it, and a Not Realistic reply without one gets the
placeholder. -/
theorem realistic_reason_dropped_witness :
    validate_prediction []
        [(kPrediction, JsonV.str sRealistic), (kReason, JsonV.str (str2list "extra"))] =
      (200, [(kName, .str []), (kPrediction, .str sRealistic)]) ∧
    validate_prediction [] [(kPrediction, JsonV.str sNotRealistic)] =
      (200, [(kName, .str []), (kPrediction, .str sNotRealistic),
             (kReason, .str sNoReason)]) := by
  have h := realistic_reason_dropped []
    [(kPrediction, JsonV.str sRealistic), (kReason, JsonV.str (str2list "extra"))]
  have h' := realistic_reason_dropped [] [(kPrediction, JsonV.str sNotRealistic)]
  exact ⟨h.1 (by decide), by simpa using h'.2.1 (by decide)⟩

/-- C9: on a reply without a json-annotated code fence, the extraction
helper returns the stripped reply unchanged; the brace test is
unobservable since both of its branches return the stripped text. -/
theorem extract_unfenced (s : List Nat) (h : fenceSearch s = none) :
    extract_json_from_response s = pyStrip s := by
  unfold extract_json_from_response
  rw [h]
  split <;> simp_all

/-- C9 witness: a plain-text reply that is not JSON is passed on whole,
merely stripped. -/
theorem extract_unfenced_witness :
    extract_json_from_response (str2list " The name looks fine to me. ") =
      pyStrip (str2list " The name looks fine to me. ") :=
  extract_unfenced _ (by decide)

/-- C1 counterexample: in the prompt-enhancement variant a pre-check
rejection returns 200 Not Realistic, but with no reason at all — the
verdict does not carry one of the four fixed reason codes. -/
theorem precheck_reason_counterexample :
    predictEnh (some ⟨some (.str (str2list "m.ahmed")), none⟩) (.error ()) =
      ⟨200, [(kName, .str (str2list "M.ahmed")), (kPrediction, .str sNotRealistic)], false⟩ ∧
    objGet (predictEnh (some ⟨some (.str (str2list "m.ahmed")), none⟩) (.error ())).body
        kReason = none ∧
    (precheck_name_enh (normalizeEnh (str2list "m.ahmed"))).1 = false := by decide

/-- C1 amended: a candidate failing the pre-check yields a terminal
Not Realistic verdict with success status and no remote call in both
variants; the `app-precheck.py` variant carries one of the four fixed
reasons, while the prompt-enhancement variant (reached only with an
allow-listed model) carries no reason field. -/
theorem precheck_rejection_verdict
    (raw : List Nat) (m : Option (List Nat))
    (jsonLoads : List Nat → Except Unit JsonObj) (api : Except (List Nat) (List Nat))
    (rawE : List Nat) (mE : Option (List Nat)) (apiE : Except Unit (List Nat))
    (h1 : normalizeName raw ≠ [])
    (h2 : (precheck_name (normalizeName raw)).1 = false)
    (h3 : normalizeEnh rawE ≠ [])
    (h4 : mE.getD (str2list "gpt-4o-mini") ∈ VALID_MODELS)
    (h5 : (precheck_name_enh (normalizeEnh rawE)).1 = false) :
    (∃ r, r ∈ [msgInvalidChars, msgTooFew, msgConsecutive, msgDot] ∧
      predictPre (some ⟨some (.str raw), m⟩) jsonLoads api =
        ⟨200, [(kName, .str (normalizeName raw)), (kPrediction, .str sNotRealistic),
               (kReason, .str r)], false⟩) ∧
    predictEnh (some ⟨some (.str rawE), mE⟩) apiE =
      ⟨200, [(kName, .str (normalizeEnh rawE)), (kPrediction, .str sNotRealistic)], false⟩ := by
  constructor
  · obtain ⟨r, hr2, hrmem⟩ := precheck_reason_mem _ h2
    refine ⟨r, hrmem, ?_⟩
    unfold predictPre
    simp [h1, h2, hr2]
  · unfold predictEnh
    simp [h3, h4, h5]

/-- C1 witness: concrete pre-check-failing requests to both variants. -/
theorem precheck_rejection_verdict_witness :
    (∃ r, r ∈ [msgInvalidChars, msgTooFew, msgConsecutive, msgDot] ∧
      predictPre (some ⟨some (.str (str2list "m.ahmed")), none⟩)
          (fun _ => .error ()) (.error []) =
        ⟨200, [(kName, .str (normalizeName (str2list "m.ahmed"))),
               (kPrediction, .str sNotRealistic), (kReason, .str r)], false⟩) ∧
    predictEnh (some ⟨some (.str (str2list "m.ahmed")), none⟩) (.error ()) =
      ⟨200, [(kName, .str (normalizeEnh (str2list "m.ahmed"))),
             (kPrediction, .str sNotRealistic)], false⟩ :=
  precheck_rejection_verdict (str2list "m.ahmed") none (fun _ => .error ()) (.error [])
    (str2list "m.ahmed") none (.error ())
    (by decide) (by decide) (by decide) (by decide) (by decide)

/-- C2 counterexample: in `app-precheck.py`, a request with an unlisted
model and a name the pre-check rejects yields the 200 Not Realistic
verdict, not the InvalidModel client error — the allow-list check does
not precede the pre-check there. -/
theorem invalid_model_order_counterexample :
    str2list "gpt-5" ∉ VALID_MODELS ∧
    predictPre (some ⟨some (.str (str2list "m.ahmed")), some (str2list "gpt-5")⟩)
        (fun _ => .error ()) (.error []) =
      ⟨200, [(kName, .str (str2list "M.ahmed")), (kPrediction, .str sNotRealistic),
             (kReason, .str msgDot)], false⟩ ∧
    (predictPre (some ⟨some (.str (str2list "m.ahmed")), some (str2list "gpt-5")⟩)
        (fun _ => .error ()) (.error [])).status ≠ 400 := by decide

/-- C2 amended: an unlisted model yields the InvalidModel client error
with no remote call — before the pre-check in the prompt-enhancement
variant, but only after the pre-check passes in `app-precheck.py`. -/
theorem invalid_model_rejection
    (raw : List Nat) (m : Option (List Nat))
    (jsonLoads : List Nat → Except Unit JsonObj) (api : Except (List Nat) (List Nat))
    (rawE : List Nat) (mE : Option (List Nat)) (apiE : Except Unit (List Nat))
    (h1 : normalizeName raw ≠ [])
    (h2 : (precheck_name (normalizeName raw)).1 = true)
    (h3 : m.getD (str2list "gpt-4.1-nano") ∉ VALID_MODELS)
    (h4 : normalizeEnh rawE ≠ [])
    (h5 : mE.getD (str2list "gpt-4o-mini") ∉ VALID_MODELS) :
    predictPre (some ⟨some (.str raw), m⟩) jsonLoads api =
      ⟨400, [(kError, .str msgInvalidModel)], false⟩ ∧
    predictEnh (some ⟨some (.str rawE), mE⟩) apiE =
      ⟨400, [(kError, .str msgInvalidModel)], false⟩ := by
  constructor
  · unfold predictPre
    simp [h1, h2, h3]
  · unfold predictEnh
    simp [h4, h5]

/-- C2 witness: a pre-check-passing name with an unlisted model in
`app-precheck.py`, and an unlisted model in the enhancement variant. -/
theorem invalid_model_rejection_witness :
    predictPre (some ⟨some (.str (str2list "Mr. Hanif Uddin")), some (str2list "gpt-5")⟩)
        (fun _ => .error ()) (.error []) =
      ⟨400, [(kError, .str msgInvalidModel)], false⟩ ∧
    predictEnh (some ⟨some (.str (str2list "Hanif")), some (str2list "gpt-5")⟩) (.error ()) =
      ⟨400, [(kError, .str msgInvalidModel)], false⟩ :=
  invalid_model_rejection (str2list "Mr. Hanif Uddin") (some (str2list "gpt-5"))
    (fun _ => .error ()) (.error []) (str2list "Hanif") (some (str2list "gpt-5")) (.error ())
    (by decide) (by decide) (by decide) (by decide) (by decide)

/-- Unfolding lemma: one step of the capture scan. -/
theorem findBody_cons (acc : List Nat) (c : Nat) (rest : List Nat) :
    findBody acc (c :: rest) =
      if c == 125 && closeAndFence rest then some (123 :: (acc.reverse ++ [125]))
      else findBody (c :: acc) rest := rfl

/-- Unfolding lemma: one step of the leftmost search. -/
theorem fenceSearch_cons (c : Nat) (rest : List Nat) :
    fenceSearch (c :: rest) =
      match matchFenceHere (c :: rest) with
      | some g => some g
      | none => fenceSearch rest := rfl

/-- Unfolding lemma: a position starting with three backticks and a
lower-case json tag proceeds to the brace scan. -/
theorem matchFenceHere_json (rest : List Nat) :
    matchFenceHere (96 :: 96 :: 96 :: 106 :: 115 :: 111 :: 110 :: rest) =
      match rest.dropWhile isPySpace with
      | 123 :: body => findBody [] body
      | _ => none := rfl

/-- A position whose first character is not a backtick never starts a
fence match. -/
theorem matchFenceHere_of_ne (c : Nat) (rest : List Nat) (h : c ≠ 96) :
    matchFenceHere (c :: rest) = none := by
  unfold matchFenceHere
  split
  · simp_all
  · rfl

/-- A backtick-free text contains no fence match at all. -/
theorem fenceSearch_of_no_backtick (s : List Nat) (h : ∀ c ∈ s, c ≠ 96) :
    fenceSearch s = none := by
  induction s with
  | nil => rfl
  | cons c rest ih =>
    rw [fenceSearch_cons, matchFenceHere_of_ne c rest (h c (List.mem_cons_self c rest))]
    exact ih (fun d hd => h d (List.mem_cons_of_mem c hd))

/-- Stripping is the identity on a text whose ends are not whitespace. -/
theorem pyStrip_eq_self (t : List Nat)
    (h1 : ∀ c, t.head? = some c → isPySpace c = false)
    (h2 : ∀ c, t.getLast? = some c → isPySpace c = false) :
    pyStrip t = t := by
  unfold pyStrip
  have e1 : t.dropWhile isPySpace = t := by
    cases t with
    | nil => rfl
    | cons a t' => rw [List.dropWhile_cons_of_neg (by simp [h1 a rfl])]
  rw [e1]
  have e2 : t.reverse.dropWhile isPySpace = t.reverse := by
    cases hr : t.reverse with
    | nil => rfl
    | cons a r' =>
      have ha : t.getLast? = some a := by
        rw [List.getLast?_eq_head?_reverse, hr]
        rfl
      rw [List.dropWhile_cons_of_neg (by simp [h2 a ha])]
  rw [e2, List.reverse_reverse]

/-- After a closing brace inside a backtick-free body that still continues
with a non-whitespace character, the fence tail does not follow. -/
theorem closeAndFence_no_backtick (xs t : List Nat)
    (hne : xs.dropWhile isPySpace ≠ []) (h96 : ∀ c ∈ xs, c ≠ 96) :
    closeAndFence (xs ++ t) = false := by
  unfold closeAndFence
  rw [List.dropWhile_append]
  have hb : (xs.dropWhile isPySpace).isEmpty = false := by
    cases h : xs.dropWhile isPySpace with
    | nil => exact absurd h hne
    | cons a r => rfl
  rw [hb, if_neg Bool.false_ne_true]
  cases h : xs.dropWhile isPySpace with
  | nil => exact absurd h hne
  | cons a r =>
    have ha : a ∈ xs := List.dropWhile_subset _ (by rw [h]; exact List.mem_cons_self a r)
    have ha96 : a ≠ 96 := h96 a ha
    split
    · simp_all
    · rfl

/-- The non-greedy capture runs to the end of a backtick-free body that
closes with a brace: no earlier closing brace is followed by the fence
tail. -/
theorem findBody_run (xs : List Nat) : ∀ acc : List Nat,
    xs.getLast? = some 125 → (∀ c ∈ xs, c ≠ 96) →
    findBody acc (xs ++ [10, 96, 96, 96]) = some (123 :: (acc.reverse ++ xs)) := by
  induction xs with
  | nil =>
    intro acc hlast _
    simp at hlast
  | cons c xs' ih =>
    intro acc hlast h96
    rw [List.cons_append, findBody_cons]
    match xs', hlast, ih with
    | [], hlast, _ =>
      have hc : c = 125 := by simpa using hlast
      subst hc
      rw [if_pos (by decide)]
    | d :: xs'', hlast, ih =>
      have hlast' : (d :: xs'').getLast? = some 125 := by
        rwa [List.getLast?_cons_cons] at hlast
      have h96' : ∀ e ∈ d :: xs'', e ≠ 96 :=
        fun e he => h96 e (List.mem_cons_of_mem c he)
      have hcf : closeAndFence (d :: xs'' ++ [10, 96, 96, 96]) = false := by
        refine closeAndFence_no_backtick _ _ ?_ h96'
        intro hdrop
        have h125 : isPySpace 125 = true :=
          (List.dropWhile_eq_nil_iff.mp hdrop) 125 (List.mem_of_getLast?_eq_some hlast')
        simp [isPySpace] at h125
      rw [List.cons_append] at hcf
      rw [if_neg (by simp [hcf])]
      rw [ih (c :: acc) hlast' h96']
      simp

/-- The fence search on a wrapped backtick-free payload captures exactly
the payload. -/
theorem fenceSearch_fenceWrap (p : List Nat)
    (hh : p.head? = some 123) (hl : p.getLast? = some 125)
    (h96 : ∀ c ∈ p, c ≠ 96) :
    fenceSearch (fenceWrap p) = some p := by
  match p, hh with
  | 123 :: pt, _ =>
    have hpt : pt ≠ [] := by
      intro h
      subst h
      simp at hl
    match pt, hpt with
    | e :: pt', _ =>
      have hlast' : (e :: pt').getLast? = some 125 := by
        rwa [List.getLast?_cons_cons] at hl
      have h96' : ∀ c ∈ e :: pt', c ≠ 96 :=
        fun c hc => h96 c (List.mem_cons_of_mem 123 hc)
      have harg : fenceWrap (123 :: e :: pt') =
          96 :: 96 :: 96 :: 106 :: 115 :: 111 :: 110 :: 10 :: 123 :: e ::
            (pt' ++ [10, 96, 96, 96]) := rfl
      have hd : (10 :: 123 :: e :: (pt' ++ [10, 96, 96, 96])).dropWhile isPySpace =
          123 :: e :: (pt' ++ [10, 96, 96, 96]) := by
        rw [List.dropWhile_cons_of_pos (by decide),
          List.dropWhile_cons_of_neg (by decide)]
      have hInner :
          matchFenceHere (96 :: 96 :: 96 :: 106 :: 115 :: 111 :: 110 :: 10 :: 123 :: e ::
            (pt' ++ [10, 96, 96, 96])) = some (123 :: e :: pt') := by
        rw [matchFenceHere_json]
        split
        · rename_i body heq
          rw [hd] at heq
          cases heq
          rw [← List.cons_append]
          rw [findBody_run (e :: pt') [] hlast' h96']
          simp
        · rename_i hne
          rw [hd] at hne
          simp at hne
      rw [harg, fenceSearch_cons, hInner]

/-- C8 counterexample: a valid JSON object whose string field contains a
brace-space-backticks sequence is truncated by the fence regex, so the
fenced reply is not extracted identically to the bare reply. -/
theorem fenced_extraction_counterexample :
    extract_json_from_response (str2list "\x7b\"prediction\": \"Realistic\", \"x\": \"\x7d ```\"\x7d") =
      str2list "\x7b\"prediction\": \"Realistic\", \"x\": \"\x7d ```\"\x7d" ∧
    extract_json_from_response
        (fenceWrap (str2list "\x7b\"prediction\": \"Realistic\", \"x\": \"\x7d ```\"\x7d")) =
      str2list "\x7b\"prediction\": \"Realistic\", \"x\": \"\x7d" ∧
    extract_json_from_response
        (fenceWrap (str2list "\x7b\"prediction\": \"Realistic\", \"x\": \"\x7d ```\"\x7d")) ≠
      extract_json_from_response (str2list "\x7b\"prediction\": \"Realistic\", \"x\": \"\x7d ```\"\x7d") := by
  decide

/-- C8 amended: for every backtick-free payload delimited by braces, both
extraction helpers recover exactly the payload from the fenced reply and
from the bare reply, so every downstream parse and validation treats the
two replies identically. -/
theorem fenced_extraction_equiv (p : List Nat)
    (hh : p.head? = some 123) (hl : p.getLast? = some 125)
    (h96 : ∀ c ∈ p, c ≠ 96) :
    extract_json_from_response (fenceWrap p) = p ∧
    extract_json_from_response p = p ∧
    extractJsonPre (fenceWrap p) = p ∧
    extractJsonPre p = p ∧
    ∀ load : List Nat → Except Unit JsonObj,
      load (extract_json_from_response (fenceWrap p)) =
        load (extract_json_from_response p) := by
  have hs : fenceSearch (fenceWrap p) = some p := fenceSearch_fenceWrap p hh hl h96
  have hn : fenceSearch p = none := fenceSearch_of_no_backtick p h96
  have hstrip : pyStrip p = p := by
    refine pyStrip_eq_self p ?_ ?_
    · intro c hc
      rw [hh] at hc
      cases hc
      decide
    · intro c hc
      rw [hl] at hc
      cases hc
      decide
  have e1 : extract_json_from_response (fenceWrap p) = p := by
    unfold extract_json_from_response
    rw [hs]
  have e2 : extract_json_from_response p = p := by
    unfold extract_json_from_response
    rw [hn]
    split <;> simp_all
  refine ⟨e1, e2, ?_, ?_, ?_⟩
  · unfold extractJsonPre
    rw [hs]
    rfl
  · unfold extractJsonPre
    rw [hn]
    rfl
  · intro load
    rw [e1, e2]

/-- C8 witness: the canonical fenced Not Realistic reply is extracted to
the bare payload, identically to the unfenced reply. -/
theorem fenced_extraction_equiv_witness :
    extract_json_from_response
        (fenceWrap (str2list "\x7b\"prediction\":\"Not Realistic\",\"reason\":\"keyboard pattern\"\x7d")) =
      str2list "\x7b\"prediction\":\"Not Realistic\",\"reason\":\"keyboard pattern\"\x7d" ∧
    extract_json_from_response
        (str2list "\x7b\"prediction\":\"Not Realistic\",\"reason\":\"keyboard pattern\"\x7d") =
      str2list "\x7b\"prediction\":\"Not Realistic\",\"reason\":\"keyboard pattern\"\x7d" :=
  have h := fenced_extraction_equiv
    (str2list "\x7b\"prediction\":\"Not Realistic\",\"reason\":\"keyboard pattern\"\x7d")
    (by decide) (by decide) (by decide)
  ⟨h.1, h.2.1⟩

/-- C10: a request whose name field holds a non-string JSON value makes
`.strip()` raise past the input-validation branches; only the catch-all
handler answers, with a 500 server error, never a 400 client error, and
no remote call. -/
theorem nonstring_name_server_error (v : JVal) (m : Option (List Nat))
    (jsonLoads : List Nat → Except Unit JsonObj)
    (api : Except (List Nat) (List Nat))
    (h : ∀ s, v ≠ JVal.str s) :
    predictPre (some ⟨some v, m⟩) jsonLoads api =
      ⟨500, [(kError, .str (str2list "An unexpected server error occurred"))], false⟩ := by
  unfold predictPre
  cases v with
  | str s => exact absurd rfl (h s)
  | num n => rfl
  | null => rfl
  | jbool b => rfl

/-- C10 witness: a JSON number 5 in the name field yields the 500
catch-all response with no remote call. -/
theorem nonstring_name_server_error_witness :
    predictPre (some ⟨some (JVal.num 5), none⟩) (fun _ => .error ()) (.error []) =
      ⟨500, [(kError, .str (str2list "An unexpected server error occurred"))], false⟩ :=
  nonstring_name_server_error (JVal.num 5) none (fun _ => .error ()) (.error [])
    (fun _ hh => JVal.noConfusion hh)

/-! ## Normalization idempotence: the split/join layer -/

/-- Unfolding: a whitespace head is skipped by the splitter. -/
theorem pySplit_ws (c : Nat) (cs : List Nat) (h : isPySpace c = true) :
    pySplit (c :: cs) = pySplit cs := by
  have e : pySplit (c :: cs) =
      if isPySpace c then pySplit cs
      else match cs with
        | [] => [[c]]
        | d :: _ =>
          if isPySpace d then [c] :: pySplit cs
          else match pySplit cs with
            | [] => [[c]]
            | w :: ws => (c :: w) :: ws := rfl
  rw [e, if_pos h]

/-- Unfolding: a final non-whitespace character forms its own word. -/
theorem pySplit_single (c : Nat) (h : isPySpace c = false) :
    pySplit [c] = [[c]] := by
  have e : pySplit [c] =
      if isPySpace c then pySplit ([] : List Nat) else [[c]] := rfl
  rw [e, if_neg (by simp [h])]

/-- Unfolding: a word closes before a whitespace character. -/
theorem pySplit_cons_ws (c d : Nat) (cs : List Nat) (hc : isPySpace c = false)
    (hd : isPySpace d = true) :
    pySplit (c :: d :: cs) = [c] :: pySplit (d :: cs) := by
  have e : pySplit (c :: d :: cs) =
      if isPySpace c then pySplit (d :: cs)
      else if isPySpace d then [c] :: pySplit (d :: cs)
      else match pySplit (d :: cs) with
        | [] => [[c]]
        | w :: ws => (c :: w) :: ws := rfl
  rw [e, if_neg (by simp [hc]), if_pos hd]

/-- Unfolding: a non-whitespace character extends the first word of the
split of the rest. -/
theorem pySplit_cons_build (c d : Nat) (cs : List Nat) (hc : isPySpace c = false)
    (hd : isPySpace d = false) (w : List Nat) (ws : List (List Nat))
    (hrec : pySplit (d :: cs) = w :: ws) :
    pySplit (c :: d :: cs) = (c :: w) :: ws := by
  have e : pySplit (c :: d :: cs) =
      if isPySpace c then pySplit (d :: cs)
      else if isPySpace d then [c] :: pySplit (d :: cs)
      else match pySplit (d :: cs) with
        | [] => [[c]]
        | w :: ws => (c :: w) :: ws := rfl
  rw [e, if_neg (by simp [hc]), if_neg (by simp [hd]), hrec]

/-- Unfolding: the degenerate branch of the splitter. -/
theorem pySplit_cons_build_nil (c d : Nat) (cs : List Nat) (hc : isPySpace c = false)
    (hd : isPySpace d = false) (hrec : pySplit (d :: cs) = []) :
    pySplit (c :: d :: cs) = [[c]] := by
  have e : pySplit (c :: d :: cs) =
      if isPySpace c then pySplit (d :: cs)
      else if isPySpace d then [c] :: pySplit (d :: cs)
      else match pySplit (d :: cs) with
        | [] => [[c]]
        | w :: ws => (c :: w) :: ws := rfl
  rw [e, if_neg (by simp [hc]), if_neg (by simp [hd]), hrec]

/-- Every word the splitter produces is nonempty and whitespace-free. -/
theorem pySplit_good (s : List Nat) : goodWords (pySplit s) := by
  induction s using pySplit.induct with
  | case1 =>
    intro w hw
    simp [pySplit] at hw
  | case2 d tail hd ih =>
    rw [pySplit_ws d tail hd]
    exact ih
  | case3 d hd =>
    rw [pySplit_single d (by simpa using hd)]
    intro w hw
    rw [List.mem_singleton] at hw
    subst hw
    exact ⟨by simp, by intro c hc; rw [List.mem_singleton] at hc; subst hc; simpa using hd⟩
  | case4 d hd d1 tail hd1 ih =>
    rw [pySplit_cons_ws d d1 tail (by simpa using hd) hd1]
    intro w hw
    rcases List.mem_cons.mp hw with rfl | hw
    · exact ⟨by simp, by intro c hc; rw [List.mem_singleton] at hc; subst hc; simpa using hd⟩
    · exact ih w hw
  | case5 d hd d1 tail hd1 hrec ih =>
    rw [pySplit_cons_build_nil d d1 tail (by simpa using hd) (by simpa using hd1) hrec]
    intro w hw
    rw [List.mem_singleton] at hw
    subst hw
    exact ⟨by simp, by intro c hc; rw [List.mem_singleton] at hc; subst hc; simpa using hd⟩
  | case6 d hd d1 tail hd1 w ws hrec ih =>
    rw [pySplit_cons_build d d1 tail (by simpa using hd) (by simpa using hd1) w ws hrec]
    intro v hv
    rw [hrec] at ih
    rcases List.mem_cons.mp hv with rfl | hv
    · have hw := ih w (by simp)
      refine ⟨by simp, ?_⟩
      intro c hc
      rcases List.mem_cons.mp hc with rfl | hc
      · simpa using hd
      · exact hw.2 c hc
    · exact ih v (List.mem_cons_of_mem w hv)

/-- Splitting a good word followed by nothing or by whitespace puts the
word first. -/
theorem pySplit_word_append (w : List Nat) : ∀ rest : List Nat, goodWord w →
    (rest = [] ∨ ∃ e rest', rest = e :: rest' ∧ isPySpace e = true) →
    pySplit (w ++ rest) = w :: pySplit rest := by
  induction w with
  | nil =>
    intro rest hw _
    exact absurd rfl hw.1
  | cons c w' ihw =>
    intro rest hw hr
    have hc : isPySpace c = false := hw.2 c (List.mem_cons_self c w')
    cases w' with
    | nil =>
      rcases hr with rfl | ⟨e, rest', rfl, he⟩
      · exact pySplit_single c hc
      · exact pySplit_cons_ws c e rest' hc he
    | cons d w'' =>
      have hd : isPySpace d = false := hw.2 d (by simp)
      have hw' : goodWord (d :: w'') :=
        ⟨by simp, fun x hx => hw.2 x (List.mem_cons_of_mem c hx)⟩
      have hrec := ihw rest hw' hr
      rw [List.cons_append] at hrec
      have := pySplit_cons_build c d (w'' ++ rest) hc hd (d :: w'') (pySplit rest) hrec
      rw [List.cons_append, List.cons_append]
      exact this

/-- Unfolding of the joiner on two or more words. -/
theorem joinWords_cons₂ (w w' : List Nat) (ws : List (List Nat)) :
    joinWords (w :: w' :: ws) = w ++ 32 :: joinWords (w' :: ws) := rfl

/-- A join of good words is nonempty when the word list is. -/
theorem joinWords_ne_nil (w : List Nat) (ws : List (List Nat)) (hw : w ≠ []) :
    joinWords (w :: ws) ≠ [] := by
  cases ws with
  | nil => exact hw
  | cons w' ws' =>
    rw [joinWords_cons₂]
    simp [hw]

/-- Every character of a join is a separator space or a word character. -/
theorem joinWords_mem (ws : List (List Nat)) : ∀ c ∈ joinWords ws,
    c = 32 ∨ ∃ w ∈ ws, c ∈ w := by
  induction ws with
  | nil =>
    intro c hc
    simp [joinWords] at hc
  | cons w ws' ih =>
    cases ws' with
    | nil =>
      intro c hc
      exact Or.inr ⟨w, by simp, hc⟩
    | cons w' ws'' =>
      intro c hc
      rw [joinWords_cons₂] at hc
      rcases List.mem_append.mp hc with hc | hc
      · exact Or.inr ⟨w, by simp, hc⟩
      · rcases List.mem_cons.mp hc with rfl | hc
        · exact Or.inl rfl
        · rcases ih c hc with h32 | ⟨v, hv, hcv⟩
          · exact Or.inl h32
          · exact Or.inr ⟨v, List.mem_cons_of_mem w hv, hcv⟩

/-- The head of a join of good words is not whitespace. -/
theorem joinWords_head (ws : List (List Nat)) (h : goodWords ws) :
    ∀ c, (joinWords ws).head? = some c → isPySpace c = false := by
  cases ws with
  | nil =>
    intro c hc
    simp [joinWords] at hc
  | cons w ws' =>
    have hw := h w (List.mem_cons_self w ws')
    cases ws' with
    | nil =>
      intro c hc
      exact hw.2 c (List.mem_of_mem_head? (Option.mem_def.mpr hc))
    | cons w' ws'' =>
      intro c hc
      rw [joinWords_cons₂, List.head?_append] at hc
      cases hwh : w.head? with
      | none => exact absurd (List.head?_eq_none_iff.mp hwh) hw.1
      | some a =>
        rw [hwh] at hc
        simp only [Option.or_some] at hc
        rw [Option.some_inj] at hc
        subst hc
        exact hw.2 a (List.mem_of_mem_head? (Option.mem_def.mpr hwh))

/-- The last character of a join of good words is not whitespace. -/
theorem joinWords_last (ws : List (List Nat)) (h : goodWords ws) :
    ∀ c, (joinWords ws).getLast? = some c → isPySpace c = false := by
  induction ws with
  | nil =>
    intro c hc
    simp [joinWords] at hc
  | cons w ws' ih =>
    have hw := h w (List.mem_cons_self w ws')
    cases ws' with
    | nil =>
      intro c hc
      exact hw.2 c (List.mem_of_getLast?_eq_some hc)
    | cons w' ws'' =>
      intro c hc
      rw [joinWords_cons₂, List.getLast?_append] at hc
      have hne : joinWords (w' :: ws'') ≠ [] :=
        joinWords_ne_nil w' ws'' (h w' (by simp)).1
      have hJ : (32 :: joinWords (w' :: ws'')).getLast? = some c := by
        cases hg : (32 :: joinWords (w' :: ws'')).getLast? with
        | none =>
          exact absurd (List.getLast?_eq_none_iff.mp hg) (List.cons_ne_nil 32 _)
        | some x =>
          rw [hg] at hc
          simpa using hc
      cases hJ' : joinWords (w' :: ws'') with
      | nil => exact absurd hJ' hne
      | cons x J' =>
        rw [hJ', List.getLast?_cons_cons] at hJ
        have ih' := ih (fun v hv => h v (List.mem_cons_of_mem w hv))
        rw [hJ'] at ih'
        exact ih' c hJ
/-- Splitting inverts joining on good words. -/
theorem pySplit_joinWords (ws : List (List Nat)) (h : goodWords ws) :
    pySplit (joinWords ws) = ws := by
  induction ws with
  | nil => rfl
  | cons w ws' ih =>
    have hw := h w (List.mem_cons_self w ws')
    cases ws' with
    | nil =>
      have := pySplit_word_append w [] hw (Or.inl rfl)
      simpa using this
    | cons w' ws'' =>
      rw [joinWords_cons₂]
      rw [pySplit_word_append w (32 :: joinWords (w' :: ws'')) hw
        (Or.inr ⟨32, joinWords (w' :: ws''), rfl, by decide⟩)]
      rw [pySplit_ws 32 _ (by decide)]
      rw [ih (fun v hv => h v (List.mem_cons_of_mem w hv))]

/-! ## Normalization idempotence: the collapse, strip and casing layers -/

/-- Collapsing is the identity when no two whitespace characters are
adjacent and every whitespace character is already a plain space. -/
theorem collapseWs_eq_self (t : List Nat) (h1 : List.Chain' noPairWs t)
    (h2 : ∀ c ∈ t, isPySpace c = true → c = 32) : collapseWs t = t := by
  induction t using collapseWs.induct with
  | case1 => rfl
  | case2 c hc =>
    show (if isPySpace c then [32] else [c]) = [c]
    rw [if_pos hc, h2 c (by simp) hc]
  | case3 c hc =>
    show (if isPySpace c then [32] else [c]) = [c]
    rw [if_neg hc]
  | case4 a b rest hab ih =>
    exfalso
    rw [Bool.and_eq_true] at hab
    exact (List.chain'_cons.mp h1).1 hab
  | case5 a b rest hab ih =>
    show (if isPySpace a && isPySpace b then collapseWs (b :: rest)
      else (if isPySpace a then 32 else a) :: collapseWs (b :: rest)) = a :: b :: rest
    rw [if_neg hab]
    have ht := ih (List.chain'_cons.mp h1).2
      (fun c hc hw => h2 c (List.mem_cons_of_mem a hc) hw)
    rw [ht]
    by_cases ha : isPySpace a = true
    · rw [if_pos ha, h2 a (by simp) ha]
    · rw [if_neg ha]

/-- A list without whitespace has no adjacent whitespace pair. -/
theorem chain'_of_no_ws (l : List Nat) (h : ∀ c ∈ l, isPySpace c = false) :
    List.Chain' noPairWs l := by
  induction l with
  | nil => exact List.chain'_nil
  | cons c l' ih =>
    rw [List.chain'_cons']
    refine ⟨?_, ih (fun d hd => h d (List.mem_cons_of_mem c hd))⟩
    intro y _
    intro hp
    rw [h c (by simp)] at hp
    exact absurd hp.1 (by simp)

/-- A join of good words has no adjacent whitespace pair. -/
theorem joinWords_chain (ws : List (List Nat)) (h : goodWords ws) :
    List.Chain' noPairWs (joinWords ws) := by
  induction ws with
  | nil => exact List.chain'_nil
  | cons w ws' ih =>
    have hw := h w (List.mem_cons_self w ws')
    cases ws' with
    | nil => exact chain'_of_no_ws w hw.2
    | cons w' ws'' =>
      rw [joinWords_cons₂]
      rw [List.chain'_append]
      refine ⟨chain'_of_no_ws w hw.2, ?_, ?_⟩
      · rw [List.chain'_cons']
        refine ⟨?_, ih (fun v hv => h v (List.mem_cons_of_mem w hv))⟩
        intro y hy
        intro hp
        have hy' : isPySpace y = false :=
          joinWords_head (w' :: ws'') (fun v hv => h v (List.mem_cons_of_mem w hv)) y
            (Option.mem_def.mp hy)
        rw [hy'] at hp
        exact absurd hp.2 (by simp)
      · intro x hx y hy
        intro hp
        have hx' : isPySpace x = false := hw.2 x (List.mem_of_getLast?_eq_some (Option.mem_def.mp hx))
        rw [hx'] at hp
        exact absurd hp.1 (by simp)

/-- Every whitespace character of a join of good words is the separator
space. -/
theorem joinWords_allWs32 (ws : List (List Nat)) (h : goodWords ws) :
    ∀ c ∈ joinWords ws, isPySpace c = true → c = 32 := by
  intro c hc hw
  rcases joinWords_mem ws c hc with h32 | ⟨w, hwmem, hcw⟩
  · exact h32
  · exact absurd hw (by rw [(h w hwmem).2 c hcw]; simp)

/-- Collapsing fixes a join of good words. -/
theorem collapse_joinWords (ws : List (List Nat)) (h : goodWords ws) :
    collapseWs (joinWords ws) = joinWords ws :=
  collapseWs_eq_self _ (joinWords_chain ws h) (joinWords_allWs32 ws h)

/-- Stripping fixes a join of good words. -/
theorem strip_joinWords (ws : List (List Nat)) (h : goodWords ws) :
    pyStrip (joinWords ws) = joinWords ws :=
  pyStrip_eq_self _ (joinWords_head ws h) (joinWords_last ws h)

/-- The head of a dropWhile-isPySpace result is not whitespace. -/
theorem head?_dropWhile_false (l : List Nat) (c : Nat)
    (h : (l.dropWhile isPySpace).head? = some c) : isPySpace c = false := by
  have hm := List.head?_dropWhile_not isPySpace l
  rw [h] at hm
  exact hm

/-- The head of a stripped string is not whitespace. -/
theorem pyStrip_head (v : List Nat) :
    ∀ c, (pyStrip v).head? = some c → isPySpace c = false := by
  intro c hc
  unfold pyStrip at hc
  rw [List.head?_reverse] at hc
  have hA : ((v.dropWhile isPySpace).reverse).getLast? = some c := by
    conv_lhs =>
      rw [← List.takeWhile_append_dropWhile (p := isPySpace)
        (l := (v.dropWhile isPySpace).reverse)]
    rw [List.getLast?_append, hc]
    rfl
  rw [List.getLast?_reverse] at hA
  exact head?_dropWhile_false v c hA

/-- The last character of a stripped string is not whitespace. -/
theorem pyStrip_last (v : List Nat) :
    ∀ c, (pyStrip v).getLast? = some c → isPySpace c = false := by
  intro c hc
  unfold pyStrip at hc
  rw [List.getLast?_reverse] at hc
  exact head?_dropWhile_false _ c hc

/-- Stripping is idempotent. -/
theorem pyStrip_idem (v : List Nat) : pyStrip (pyStrip v) = pyStrip v :=
  pyStrip_eq_self _ (pyStrip_head v) (pyStrip_last v)

/-- A stripped string keeps only characters of the original. -/
theorem pyStrip_subset (v : List Nat) : ∀ c ∈ pyStrip v, c ∈ v := by
  intro c hc
  unfold pyStrip at hc
  rw [List.mem_reverse] at hc
  have h1 := List.dropWhile_subset (l := (v.dropWhile isPySpace).reverse) isPySpace hc
  rw [List.mem_reverse] at h1
  exact List.dropWhile_subset isPySpace h1

/-- Stripping preserves the no-adjacent-whitespace property. -/
theorem pyStrip_chain (v : List Nat) (h : List.Chain' noPairWs v) :
    List.Chain' noPairWs (pyStrip v) := by
  have hA : List.Chain' noPairWs (v.dropWhile isPySpace) := by
    rw [← List.takeWhile_append_dropWhile (p := isPySpace) (l := v)] at h
    exact (List.chain'_append.mp h).2.1
  have hdec : v.dropWhile isPySpace =
      pyStrip v ++ ((v.dropWhile isPySpace).reverse.takeWhile isPySpace).reverse := by
    conv_lhs => rw [← List.reverse_reverse (v.dropWhile isPySpace)]
    conv_lhs =>
      rw [← List.takeWhile_append_dropWhile (p := isPySpace)
        (l := (v.dropWhile isPySpace).reverse)]
    rw [List.reverse_append]
    rfl
  rw [hdec] at hA
  exact (List.chain'_append.mp hA).1

/-- Every whitespace character a collapse emits is the plain space. -/
theorem collapseWs_allWs32 (l : List Nat) :
    ∀ c ∈ collapseWs l, isPySpace c = true → c = 32 := by
  induction l using collapseWs.induct with
  | case1 =>
    intro c hc
    simp [collapseWs] at hc
  | case2 c hc =>
    intro x hx _
    show x = 32
    have : collapseWs [c] = [32] := by
      show (if isPySpace c then [32] else [c]) = [32]
      rw [if_pos hc]
    rw [this, List.mem_singleton] at hx
    exact hx
  | case3 c hc =>
    intro x hx hw
    have : collapseWs [c] = [c] := by
      show (if isPySpace c then [32] else [c]) = [c]
      rw [if_neg hc]
    rw [this, List.mem_singleton] at hx
    subst hx
    exact absurd hw (by simp [hc])
  | case4 a b rest hab ih =>
    intro x hx hw
    have : collapseWs (a :: b :: rest) = collapseWs (b :: rest) := by
      show (if isPySpace a && isPySpace b then collapseWs (b :: rest)
        else (if isPySpace a then 32 else a) :: collapseWs (b :: rest)) = _
      rw [if_pos hab]
    rw [this] at hx
    exact ih x hx hw
  | case5 a b rest hab ih =>
    intro x hx hw
    have : collapseWs (a :: b :: rest) =
        (if isPySpace a then 32 else a) :: collapseWs (b :: rest) := by
      show (if isPySpace a && isPySpace b then collapseWs (b :: rest)
        else (if isPySpace a then 32 else a) :: collapseWs (b :: rest)) = _
      rw [if_neg hab]
    rw [this] at hx
    rcases List.mem_cons.mp hx with rfl | hx
    · by_cases ha : isPySpace a = true
      · rw [if_pos ha]
      · rw [if_neg ha] at hw ⊢
        exact absurd hw (by simp [ha])
    · exact ih x hx hw

/-- The head of a collapse keeps the whitespace status of the input head. -/
theorem collapseWs_head (l : List Nat) : ∀ b, l.head? = some b →
    ∃ h, (collapseWs l).head? = some h ∧ isPySpace h = isPySpace b := by
  induction l using collapseWs.induct with
  | case1 =>
    intro b hb
    simp at hb
  | case2 c hc =>
    intro b hb
    rw [List.head?_cons, Option.some_inj] at hb
    subst hb
    refine ⟨32, ?_, by rw [hc]; decide⟩
    have he : collapseWs [c] = [32] := by
      show (if isPySpace c then [32] else [c]) = [32]
      rw [if_pos hc]
    rw [he]
    rfl
  | case3 c hc =>
    intro b hb
    rw [List.head?_cons, Option.some_inj] at hb
    subst hb
    refine ⟨c, ?_, rfl⟩
    have he : collapseWs [c] = [c] := by
      show (if isPySpace c then [32] else [c]) = [c]
      rw [if_neg hc]
    rw [he]
    rfl
  | case4 a b' rest' hab ih =>
    intro b hb
    rw [List.head?_cons, Option.some_inj] at hb
    subst hb
    rw [Bool.and_eq_true] at hab
    obtain ⟨x, hx1, hx2⟩ := ih b' rfl
    have he : collapseWs (a :: b' :: rest') = collapseWs (b' :: rest') := by
      show (if isPySpace a && isPySpace b' then collapseWs (b' :: rest')
        else (if isPySpace a then 32 else a) :: collapseWs (b' :: rest')) = _
      rw [if_pos (by rw [hab.1, hab.2]; rfl)]
    rw [he]
    refine ⟨x, hx1, ?_⟩
    rw [hx2, hab.1, hab.2]
  | case5 a b' rest' hab ih =>
    intro b hb
    rw [List.head?_cons, Option.some_inj] at hb
    subst hb
    have he : collapseWs (a :: b' :: rest') =
        (if isPySpace a then 32 else a) :: collapseWs (b' :: rest') := by
      show (if isPySpace a && isPySpace b' then collapseWs (b' :: rest')
        else (if isPySpace a then 32 else a) :: collapseWs (b' :: rest')) = _
      rw [if_neg hab]
    rw [he]
    refine ⟨if isPySpace a then 32 else a, rfl, ?_⟩
    by_cases ha : isPySpace a = true
    · rw [if_pos ha, ha]
      decide
    · rw [if_neg ha]

/-- A collapse has no adjacent whitespace pair. -/
theorem collapseWs_chain (l : List Nat) : List.Chain' noPairWs (collapseWs l) := by
  induction l using collapseWs.induct with
  | case1 => exact List.chain'_nil
  | case2 c hc =>
    have : collapseWs [c] = [32] := by
      show (if isPySpace c then [32] else [c]) = [32]
      rw [if_pos hc]
    rw [this]
    exact List.chain'_singleton 32
  | case3 c hc =>
    have : collapseWs [c] = [c] := by
      show (if isPySpace c then [32] else [c]) = [c]
      rw [if_neg hc]
    rw [this]
    exact List.chain'_singleton c
  | case4 a b rest hab ih =>
    have : collapseWs (a :: b :: rest) = collapseWs (b :: rest) := by
      show (if isPySpace a && isPySpace b then collapseWs (b :: rest)
        else (if isPySpace a then 32 else a) :: collapseWs (b :: rest)) = _
      rw [if_pos hab]
    rw [this]
    exact ih
  | case5 a b rest hab ih =>
    have he : collapseWs (a :: b :: rest) =
        (if isPySpace a then 32 else a) :: collapseWs (b :: rest) := by
      show (if isPySpace a && isPySpace b then collapseWs (b :: rest)
        else (if isPySpace a then 32 else a) :: collapseWs (b :: rest)) = _
      rw [if_neg hab]
    rw [he, List.chain'_cons']
    refine ⟨?_, ih⟩
    intro y hy
    obtain ⟨x, hx1, hx2⟩ := collapseWs_head (b :: rest) b rfl
    rw [Option.mem_def.mp hy, Option.some_inj] at hx1
    subst hx1
    intro hp
    by_cases ha : isPySpace a = true
    · rw [if_pos ha] at hp
      have hb : isPySpace b = false := by
        cases hbb : isPySpace b
        · rfl
        · exact absurd (by rw [ha, hbb]; rfl) hab
      rw [hx2, hb] at hp
      exact absurd hp.2 (by simp)
    · rw [if_neg ha] at hp
      exact absurd hp.1 ha

/-- Upper-casing does not change whitespace status. -/
theorem asciiUpper_ws (c : Nat) : isPySpace (asciiUpper c) = isPySpace c := by
  unfold asciiUpper
  split
  · rename_i h
    have h1 : isPySpace (c - 32) = false := by
      simp only [isPySpace, decide_eq_false_iff_not]
      omega
    have h2 : isPySpace c = false := by
      simp only [isPySpace, decide_eq_false_iff_not]
      omega
    rw [h1, h2]
  · rfl

/-- Lower-casing does not change whitespace status. -/
theorem asciiLower_ws (c : Nat) : isPySpace (asciiLower c) = isPySpace c := by
  unfold asciiLower
  split
  · rename_i h
    have h1 : isPySpace (c + 32) = false := by
      simp only [isPySpace, decide_eq_false_iff_not]
      omega
    have h2 : isPySpace c = false := by
      simp only [isPySpace, decide_eq_false_iff_not]
      omega
    rw [h1, h2]
  · rfl

/-- Upper-casing one character is idempotent. -/
theorem asciiUpper_idem (c : Nat) : asciiUpper (asciiUpper c) = asciiUpper c := by
  unfold asciiUpper
  split
  · rename_i h
    rw [if_neg (by omega)]
  · rfl

/-- Lower-casing one character is idempotent. -/
theorem asciiLower_idem (c : Nat) : asciiLower (asciiLower c) = asciiLower c := by
  unfold asciiLower
  split
  · rename_i h
    rw [if_neg (by omega)]
  · rfl

/-- Capitalization preserves good words. -/
theorem capWord_good (w : List Nat) (hw : goodWord w) : goodWord (capWord w) := by
  match w, hw with
  | c :: cs, hw =>
    refine ⟨by simp [capWord], ?_⟩
    intro x hx
    rcases List.mem_cons.mp hx with rfl | hx
    · rw [asciiUpper_ws]
      exact hw.2 c (List.mem_cons_self c cs)
    · obtain ⟨y, hy, rfl⟩ := List.mem_map.mp hx
      rw [asciiLower_ws]
      exact hw.2 y (List.mem_cons_of_mem c hy)

/-- Capitalizing a word twice is capitalizing it once. -/
theorem capWord_idem (w : List Nat) : capWord (capWord w) = capWord w := by
  match w with
  | [] => rfl
  | c :: cs =>
    show asciiUpper (asciiUpper c) :: (cs.map asciiLower).map asciiLower =
      asciiUpper c :: cs.map asciiLower
    rw [asciiUpper_idem]
    congr 1
    induction cs with
    | nil => rfl
    | cons d ds ih => simp [asciiLower_idem, ih]

/-- Capitalization preserves goodness of word lists. -/
theorem mapCap_good (ws : List (List Nat)) (h : goodWords ws) :
    goodWords (ws.map capWord) := by
  intro w hw
  obtain ⟨v, hv, rfl⟩ := List.mem_map.mp hw
  exact capWord_good v (h v hv)

/-- Capitalizing a word list twice is capitalizing it once. -/
theorem mapCap_idem (ws : List (List Nat)) :
    (ws.map capWord).map capWord = ws.map capWord := by
  induction ws with
  | nil => rfl
  | cons w ws' ih => simp [capWord_idem, ih]

/-- On a canonical join of good words, both capitalizing normalizers
reduce to capitalizing the words. -/
theorem norm_fix (ws : List (List Nat)) (h : goodWords ws) :
    normalizeName (joinWords ws) = joinWords (ws.map capWord) ∧
    normalizeEnh (joinWords ws) = joinWords (ws.map capWord) := by
  have hstrip := strip_joinWords ws h
  have hcol := collapse_joinWords ws h
  constructor
  · unfold normalizeName
    rw [hstrip, hcol, hstrip, pySplit_joinWords ws h]
  · unfold normalizeEnh
    rw [hstrip, hcol, pySplit_joinWords ws h]

/-- C6: all three normalizers of the repository are idempotent — the
capitalizing normalizers of `app-precheck.py` and of the
prompt-enhancement variant, and the strip-and-collapse normalizer of
`app.py`. -/
theorem normalization_idempotent (s : List Nat) :
    normalizeName (normalizeName s) = normalizeName s ∧
    normalizeEnh (normalizeEnh s) = normalizeEnh s ∧
    normalizeApp (normalizeApp s) = normalizeApp s := by
  refine ⟨?_, ?_, ?_⟩
  · have hX : goodWords ((pySplit (pyStrip (collapseWs (pyStrip s)))).map capWord) :=
      mapCap_good _ (pySplit_good _)
    have h1 : normalizeName s =
        joinWords ((pySplit (pyStrip (collapseWs (pyStrip s)))).map capWord) := rfl
    rw [h1, (norm_fix _ hX).1, mapCap_idem]
  · have hX : goodWords ((pySplit (collapseWs (pyStrip s))).map capWord) :=
      mapCap_good _ (pySplit_good _)
    have h1 : normalizeEnh s =
        joinWords ((pySplit (collapseWs (pyStrip s))).map capWord) := rfl
    rw [h1, (norm_fix _ hX).2, mapCap_idem]
  · have hchain : List.Chain' noPairWs (pyStrip (collapseWs (pyStrip s))) :=
      pyStrip_chain _ (collapseWs_chain _)
    have h32 : ∀ c ∈ pyStrip (collapseWs (pyStrip s)), isPySpace c = true → c = 32 :=
      fun c hc hw => collapseWs_allWs32 _ c (pyStrip_subset _ c hc) hw
    have hcol : collapseWs (pyStrip (collapseWs (pyStrip s))) =
        pyStrip (collapseWs (pyStrip s)) :=
      collapseWs_eq_self _ hchain h32
    show pyStrip (collapseWs (pyStrip (normalizeApp s))) = normalizeApp s
    unfold normalizeApp
    rw [pyStrip_idem, hcol, pyStrip_idem]

end NameCheck
